import Mathlib

/-!
Verification of the scroll-capture core of the `ashot` repository.

The Rust sources are shallowly embedded:

* `image::RgbaImage` becomes `Image`: a width, a height and a total pixel
  function.  `get_pixel` panics out of bounds in Rust; panic-freedom of the
  sampled reads is tracked by a separate `Bool`-valued safety definition.
* `f64`/`f32` arithmetic on pixel values becomes exact `ℚ` arithmetic
  (pixel channels are integers in 0..255, so the scores are plain ratios);
  the `f64::MAX` sentinel of `overlap_error` becomes `Option.none`.
* `u32`/`u8` saturating additions become `min (a + b) (2^32 - 1)` /
  `min (a + b) 255` over `ℕ`.
* the `&mut self` methods of `ScrollSession` become state-passing functions
  returning the new session together with the Rust return value.

Definitions follow `src/crates/capture-core/src/lib.rs`,
`src/src-tauri/src/commands.rs` and `src/src-tauri/src/screencapturekit.rs`.
-/

namespace Ashot

/-- One RGBA pixel, the four channels of `image::Rgba([r, g, b, a])`. -/
structure Pix where
  r : ℕ
  g : ℕ
  b : ℕ
  a : ℕ
deriving DecidableEq, Repr

/-- An `image::RgbaImage`: dimensions plus a total pixel lookup.  Rust's
`get_pixel` panics out of bounds; here `pix` is total and in-bounds safety is
tracked separately (`sampleFrameDifferenceSafe`). -/
structure Image where
  width : ℕ
  height : ℕ
  pix : ℕ → ℕ → Pix

/-- Values `start, start + step, start + 2*step, …` that are `< bound`:
the index sequence of a Rust `while v < bound { …; v += step }` loop.
`fuel` bounds the recursion; `strideList` supplies enough fuel. -/
def strideAux : ℕ → ℕ → ℕ → ℕ → List ℕ
  | 0, _, _, _ => []
  | fuel + 1, start, step, bound =>
    if start < bound then start :: strideAux fuel (start + step) step bound else []

/-- The full stride sequence (for `step ≥ 1` the fuel `bound - start` is
enough, and every loop in the source has `step ≥ 1` by `.max(1)`). -/
def strideList (start step bound : ℕ) : List ℕ :=
  strideAux (bound - start) start step bound

/-- Row-major sample grid: for each row `y` of `ys`, every column `x` of
`xs`, as `(x, y)` pairs — the nesting of the two sampling loops. -/
def gridPoints : List ℕ → List ℕ → List (ℕ × ℕ)
  | [], _ => []
  | y :: ys, xs => (xs.map fun x => (x, y)) ++ gridPoints ys xs

/-- Mean absolute difference of the R, G, B channels of two pixels
(alpha ignored), the per-sample term of both sampling loops. -/
def pixDiff (p c : Pix) : ℚ :=
  ((Nat.dist p.r c.r + Nat.dist p.g c.g + Nat.dist p.b c.b : ℕ) : ℚ) / 3

/-- Column stride of `sample_frame_difference`: `(width / 80).max(1)`. -/
def diffColStep (prev : Image) : ℕ := max (prev.width / 80) 1

/-- Row stride of `sample_frame_difference`: `(height / 80).max(1)`. -/
def diffRowStep (prev : Image) : ℕ := max (prev.height / 80) 1

/-- The sample grid of `sample_frame_difference`, bounded by `prev`'s
dimensions (the source reads both images at these points). -/
def diffSamples (prev : Image) : List (ℕ × ℕ) :=
  gridPoints (strideList 0 (diffRowStep prev) prev.height)
    (strideList 0 (diffColStep prev) prev.width)

/-- `sample_frame_difference` (commands.rs 732–764): strided mean absolute
RGB difference; `255.0` when `prev` is degenerate or no sample was taken. -/
def sampleFrameDifference (prev curr : Image) : ℚ :=
  if prev.width = 0 ∨ prev.height = 0 then 255
  else
    let samples := diffSamples prev
    if samples.length = 0 then 255
    else
      (samples.map fun xy => pixDiff (prev.pix xy.1 xy.2) (curr.pix xy.1 xy.2)).sum
        / samples.length

/-- Panic-freedom of `sample_frame_difference`: every sampled `get_pixel`
call on either image is in bounds (Rust's `get_pixel` panics otherwise). -/
def sampleFrameDifferenceSafe (prev curr : Image) : Bool :=
  if prev.width = 0 ∨ prev.height = 0 then true
  else
    (diffSamples prev).all fun xy =>
      xy.1 < prev.width && xy.2 < prev.height && xy.1 < curr.width && xy.2 < curr.height

/-- `MIN_SCROLL_OVERLAP` (commands.rs 33). -/
def minScrollOverlap : ℕ := 24

/-- `MIN_SCROLL_NEW_CONTENT` (commands.rs 34). -/
def minScrollNewContent : ℕ := 40

/-- `MAX_SCROLL_MATCH_ERROR` (commands.rs 35). -/
def maxScrollMatchError : ℚ := 42

/-- `MAX_SCROLL_FRAMES` (commands.rs 32). -/
def maxScrollFrames : ℕ := 80

/-- `min_overlap` of `find_best_overlap`: `MIN_SCROLL_OVERLAP.min(height - 1)`
(`ℕ` subtraction is Rust's saturating subtraction). -/
def minOverlapFor (height : ℕ) : ℕ := min minScrollOverlap (height - 1)

/-- `max_overlap` of `find_best_overlap`:
`height.saturating_sub(MIN_SCROLL_NEW_CONTENT).max(min_overlap)`. -/
def maxOverlapFor (height : ℕ) : ℕ := max (height - minScrollNewContent) (minOverlapFor height)

/-- The overlap candidates `min_overlap, min_overlap + 2, … ≤ max_overlap`
visited by the search loop of `find_best_overlap`. -/
def overlapCandidates (height : ℕ) : List ℕ :=
  strideList (minOverlapFor height) 2 (maxOverlapFor height + 1)

/-- `overlap_error` (commands.rs 766–802): banded seam score, comparing the
bottom `overlap` rows of `prev` with the top `overlap` rows of `curr` over
the central 15%–85% column band.  `none` is the `f64::MAX` sentinel
(degenerate overlap or no sample). -/
def overlapError (prev curr : Image) (overlap : ℕ) : Option ℚ :=
  if overlap = 0 ∨ overlap > prev.height then none
  else
    let xStart := prev.width * 15 / 100
    let xEnd := prev.width * 85 / 100
    let colStep := max ((xEnd - xStart) / 70) 1
    let rowStep := max (overlap / 80) 1
    let samples := gridPoints (strideList 0 rowStep overlap) (strideList xStart colStep xEnd)
    if samples.length = 0 then none
    else
      some ((samples.map fun xr =>
        pixDiff (prev.pix xr.1 (prev.height - overlap + xr.2)) (curr.pix xr.1 xr.2)).sum
          / samples.length)

/-- One iteration of `find_best_overlap`'s loop body: update the running
best `(best_overlap, best_error)` when candidate `o`'s score is strictly
below the current best (`f64::MAX < f64::MAX` and `MAX < be` are both
false, so a `none` score never updates). -/
def bestStep (oe : ℕ → Option ℚ) (best : Option (ℕ × ℚ)) (o : ℕ) : Option (ℕ × ℚ) :=
  match oe o, best with
  | none, b => b
  | some e, none => some (o, e)
  | some e, some (bo, be) => if e < be then some (o, e) else some (bo, be)

/-- The search loop of `find_best_overlap`: running best `(overlap, error)`,
starting from `best_overlap = 0, best_error = f64::MAX` (`none`). -/
def bestLoop (oe : ℕ → Option ℚ) : List ℕ → Option (ℕ × ℚ) → Option (ℕ × ℚ)
  | [], best => best
  | o :: rest, best => bestLoop oe rest (bestStep oe best o)

/-- The best candidate of `find_best_overlap`'s loop (`none` iff the loop
never updated, i.e. Rust's `best_overlap == 0`). -/
def bestCandidate (prev curr : Image) : Option (ℕ × ℚ) :=
  bestLoop (overlapError prev curr) (overlapCandidates prev.height) none

/-- The two `Err(String)` outcomes of `find_best_overlap`: no overlap
detected (commands.rs 827–829), or the best error above the quality
ceiling (commands.rs 831–836). -/
inductive MatchErr where
  | noOverlap
  | matchTooWeak
deriving DecidableEq, Repr

instance {ε α : Type} [DecidableEq ε] [DecidableEq α] : DecidableEq (Except ε α) := fun a b =>
  match a, b with
  | .ok x, .ok y =>
    if h : x = y then .isTrue (by rw [h]) else .isFalse (by simp [h])
  | .error x, .error y =>
    if h : x = y then .isTrue (by rw [h]) else .isFalse (by simp [h])
  | .ok _, .error _ => .isFalse (by simp)
  | .error _, .ok _ => .isFalse (by simp)

/-- `find_best_overlap` (commands.rs 804–839). -/
def findBestOverlap (prev curr : Image) : Except MatchErr (ℕ × ℚ) :=
  match bestCandidate prev curr with
  | none => .error .noOverlap
  | some (o, e) => if maxScrollMatchError < e then .error .matchTooWeak else .ok (o, e)

/-- `ScrollSessionState` (capture-core lib.rs 31–38). -/
inductive ScrollSessionState where
  | ready
  | capturing
  | paused
  | done
  | error
deriving DecidableEq, Repr

/-- `SkipReason` (capture-core lib.rs 40–45). -/
inductive SkipReason where
  | duplicate
  | tooSmallDelta
  | matchFailed
deriving DecidableEq, Repr

/-- `StopReason` (capture-core lib.rs 47–54). -/
inductive StopReason where
  | user
  | timeout
  | reachedMaxHeight
  | noNewContent
  | consecutiveFailures
deriving DecidableEq, Repr

/-- `AppendResult` (capture-core lib.rs 56–61); the `f64` score is `ℚ`. -/
inductive AppendResult where
  | accepted (dy : ℕ) (score : ℚ)
  | skipped (reason : SkipReason)
  | autoStopped (reason : StopReason)
deriving DecidableEq, Repr

/-- `ScrollConfig` (capture-core lib.rs 63–69). -/
structure ScrollConfig where
  maxHeightPx : ℕ
  maxFrames : ℕ
  throttleMs : ℕ
  maxConsecutiveFailures : ℕ
deriving DecidableEq, Repr

/-- `ScrollConfig::default` (capture-core lib.rs 71–80). -/
def ScrollConfig.default : ScrollConfig :=
  { maxHeightPx := 20000, maxFrames := 300, throttleMs := 100, maxConsecutiveFailures := 3 }

/-- `ScrollSession` (capture-core lib.rs 89–96). -/
structure ScrollSession where
  state : ScrollSessionState
  config : ScrollConfig
  frames : ℕ
  capturedHeightPx : ℕ
  consecutiveFailures : ℕ
deriving DecidableEq, Repr

/-- `u32::MAX`, the saturation point of `captured_height_px`. -/
def u32Max : ℕ := 2 ^ 32 - 1

/-- `u8::MAX`, the saturation point of `consecutive_failures`. -/
def u8Max : ℕ := 255

/-- `ScrollSession::new` (capture-core lib.rs 99–107). -/
def ScrollSession.new (config : ScrollConfig) : ScrollSession :=
  { state := .ready, config := config, frames := 0, capturedHeightPx := 0,
    consecutiveFailures := 0 }

/-- `ScrollSession::append_accepted` (capture-core lib.rs 115–135), as a
state-passing function: the updated session and the returned `AppendResult`. -/
def ScrollSession.appendAccepted (s : ScrollSession) (addedHeight : ℕ) (score : ℚ) :
    ScrollSession × AppendResult :=
  let frames := s.frames + 1
  let captured := min (s.capturedHeightPx + addedHeight) u32Max
  let s := { s with frames := frames, capturedHeightPx := captured, consecutiveFailures := 0 }
  if captured ≥ s.config.maxHeightPx then
    ({ s with state := .done }, .autoStopped .reachedMaxHeight)
  else if frames ≥ s.config.maxFrames then
    ({ s with state := .done }, .autoStopped .reachedMaxHeight)
  else
    ({ s with state := .capturing }, .accepted addedHeight score)

/-- `ScrollSession::append_failed` (capture-core lib.rs 137–144). -/
def ScrollSession.appendFailed (s : ScrollSession) : ScrollSession × AppendResult :=
  let failures := min (s.consecutiveFailures + 1) u8Max
  let s := { s with consecutiveFailures := failures }
  if failures ≥ s.config.maxConsecutiveFailures then
    ({ s with state := .error }, .autoStopped .consecutiveFailures)
  else
    (s, .skipped .matchFailed)

/-- `ScrollSession::cancel` (capture-core lib.rs 146–148). -/
def ScrollSession.cancel (s : ScrollSession) : ScrollSession :=
  { s with state := .done }

/-- `image::imageops::crop_imm(frame, 0, overlap, frame.width(), sliceHeight)`:
the rows `[overlap, overlap + sliceHeight)` of `frame`, full width. -/
def cropBelow (frame : Image) (overlap sliceHeight : ℕ) : Image :=
  { width := frame.width, height := sliceHeight,
    pix := fun x y => frame.pix x (overlap + y) }

/-- Pixel lookup of the composite canvas: pieces are pasted at increasing
vertical offsets (`imageops::replace` at `y_offset`); below all pieces the
canvas keeps `RgbaImage::new`'s zero initialisation. -/
def stackPix : List Image → ℕ → ℕ → Pix
  | [], _, _ => ⟨0, 0, 0, 0⟩
  | p :: rest, x, y => if y < p.height then p.pix x y else stackPix rest x (y - p.height)

/-- The composite bitmap built by both stitchers: width `w`, height the sum
of the piece heights, pieces copied in order at increasing offsets. -/
def composeVert (w : ℕ) (pieces : List Image) : Image :=
  { width := w, height := (pieces.map Image.height).sum, pix := stackPix pieces }

/-- Does the stitch scan skip `f` against the running reference `p`?  True
when the frames are too similar, overlap detection fails, or the remaining
slice is under 10 px — the three `continue` branches of both stitch loops. -/
def frameFiltered (p f : Image) : Bool :=
  if sampleFrameDifference p f < 18 / 10 then true
  else
    match findBestOverlap p f with
    | .error _ => true
    | .ok (overlap, _) => f.height - overlap < 10

/-- The shared scan of `stitch_scroll_frames` (commands.rs 1169–1201) and
`stitch_scroll_frames_preview` (commands.rs 1278–1301): threads the running
reference `prev`, the accepted pieces and the skip counter through the
remaining frames.  The strict stitcher reads the counter; the preview
ignores it. -/
def stitchLoop (prev : Image) (pieces : List Image) (skipped : ℕ) :
    List Image → List Image × ℕ
  | [] => (pieces, skipped)
  | f :: rest =>
    if sampleFrameDifference prev f < 18 / 10 then
      stitchLoop prev pieces (skipped + 1) rest
    else
      match findBestOverlap prev f with
      | .ok (overlap, _) =>
        if f.height - overlap < 10 then
          stitchLoop prev pieces (skipped + 1) rest
        else
          stitchLoop f (pieces ++ [cropBelow f overlap (f.height - overlap)]) skipped rest
      | .error _ => stitchLoop prev pieces (skipped + 1) rest

/-- `StitchResult` (commands.rs 1122–1130) without the file path, plus the
composite bitmap the source saves to that path. -/
structure StitchOut where
  totalFrames : ℕ
  usedFrames : ℕ
  skippedFrames : ℕ
  finalHeight : ℕ
  composite : Image

/-- `stitch_scroll_frames` (commands.rs 1132–1238), strict mode, with file
I/O dropped: decoding is the identity on in-memory `Image`s and the
composite is returned instead of saved. -/
def stitchScrollFrames : List Image → Except String StitchOut
  | [] => .error "At least two frames are required to stitch scroll capture"
  | f0 :: rest =>
    if (f0 :: rest).length < 2 then
      .error "At least two frames are required to stitch scroll capture"
    else if (f0 :: rest).length > maxScrollFrames then
      .error "Too many frames"
    else if f0.width < 20 ∨ f0.height < 20 then
      .error "Captured frame is too small"
    else if rest.any fun f => f.width ≠ f0.width || f.height ≠ f0.height then
      .error "Scroll frames have different dimensions"
    else if (stitchLoop f0 [f0] 0 rest).1.length < 2 then
      .error "Not enough unique frames after filtering similar ones"
    else
      .ok { totalFrames := (f0 :: rest).length,
            usedFrames := (stitchLoop f0 [f0] 0 rest).1.length,
            skippedFrames := (stitchLoop f0 [f0] 0 rest).2,
            finalHeight := ((stitchLoop f0 [f0] 0 rest).1.map Image.height).sum,
            composite := composeVert f0.width (stitchLoop f0 [f0] 0 rest).1 }

/-- The frame-cap truncation of `stitch_scroll_frames_preview`
(commands.rs 1249–1253): keep the most recent `MAX_SCROLL_FRAMES` frames
(`drop (len - 80)` is the identity when `len ≤ 80`). -/
def capFrames (frames : List Image) : List Image :=
  frames.drop (frames.length - maxScrollFrames)

/-- The preview stitcher's fallback (commands.rs 1303–1307): when filtering
collapsed everything to the single seed piece, replace the piece list by the
most recent loaded frame alone. -/
def previewPieces (c0 : Image) (crest : List Image) : List Image :=
  if (stitchLoop c0 [c0] 0 crest).1.length = 1 then
    match (c0 :: crest).getLast? with
    | some lastFrame => [lastFrame]
    | none => (stitchLoop c0 [c0] 0 crest).1
  else (stitchLoop c0 [c0] 0 crest).1

/-- `stitch_scroll_frames_preview` (commands.rs 1240–1330), lenient mode,
with file I/O dropped: the composite is returned instead of saved. -/
def stitchScrollFramesPreview (frames : List Image) : Except String Image :=
  match capFrames frames with
  | [] => .error "No frames available for preview"
  | c0 :: crest =>
    if c0.width < 20 ∨ c0.height < 20 then .error "Captured frame is too small"
    else if crest.any fun f => f.width ≠ c0.width || f.height ≠ c0.height then
      .error "Scroll frames have different dimensions"
    else
      .ok (composeVert c0.width (previewPieces c0 crest))

/-- `CaptureRectInput` (screencapturekit.rs 18–24). -/
structure CaptureRectInput where
  x : ℤ
  y : ℤ
  width : ℕ
  height : ℕ
deriving DecidableEq, Repr

/-- `MonitorGeometry` (screencapturekit.rs 26–34); the `f32` logical
coordinates and scale are embedded as `ℚ`. -/
structure MonitorGeometry where
  id : ℕ
  logicalX : ℚ
  logicalY : ℚ
  logicalWidth : ℚ
  logicalHeight : ℚ
  scale : ℚ
deriving DecidableEq, Repr

/-- Logical x-coordinate of the capture rectangle's center:
`rect.x as f32 + rect.width as f32 / 2.0`. -/
def rectCenterX (rect : CaptureRectInput) : ℚ := rect.x + (rect.width : ℚ) / 2

/-- Logical y-coordinate of the capture rectangle's center. -/
def rectCenterY (rect : CaptureRectInput) : ℚ := rect.y + (rect.height : ℚ) / 2

/-- Does `monitor`'s half-open logical bound contain the rectangle's
center?  The predicate of the `find` in `resolve_target_monitor`. -/
def monitorContainsCenter (rect : CaptureRectInput) (m : MonitorGeometry) : Bool :=
  m.logicalX ≤ rectCenterX rect && rectCenterX rect < m.logicalX + m.logicalWidth &&
    m.logicalY ≤ rectCenterY rect && rectCenterY rect < m.logicalY + m.logicalHeight

/-- `resolve_target_monitor` (screencapturekit.rs 100–113). -/
def resolveTargetMonitor (rect : CaptureRectInput) (monitors : List MonitorGeometry) :
    Option MonitorGeometry :=
  monitors.find? (monitorContainsCenter rect)

/-- `CaptureErrorKind` (capture-core lib.rs 3–11). -/
inductive CaptureErrorKind where
  | permission
  | cancelled
  | captureFailed
  | stitchFailed
  | commandFailed
  | validationFailed
deriving DecidableEq, Repr

/-- The monitor-resolution step of `capture_rect_frame_screen_capture_kit`
(screencapturekit.rs 120–122): `resolve_target_monitor(..).ok_or_else(||
"capture_failed:…")`, with the message's error kind made explicit. -/
def resolveMonitorOrFail (rect : CaptureRectInput) (monitors : List MonitorGeometry) :
    Except CaptureErrorKind MonitorGeometry :=
  match resolveTargetMonitor rect monitors with
  | some m => .ok m
  | none => .error .captureFailed

/-- A concrete session already in the terminal `Done` state, used to show the
append methods are not guarded on terminal states. -/
def doneSession : ScrollSession :=
  { state := .done, config := ScrollConfig.default, frames := 0, capturedHeightPx := 0,
    consecutiveFailures := 0 }

/-- A concrete fresh session with `max_height_px = 500` (the spec's §8.4
scenario), used to instantiate the `append_accepted` contract. -/
def smallHeightSession : ScrollSession :=
  ScrollSession.new
    { maxHeightPx := 500, maxFrames := 300, throttleMs := 100,
      maxConsecutiveFailures := 3 }

/-- Claim C3: `append_accepted` increments `frames` by one, adds the height
with `u32` saturation, resets `consecutive_failures`, and transitions to
`Done`/`AutoStopped(ReachedMaxHeight)` exactly when the new height reaches
`max_height_px` or the new frame count reaches `max_frames`; otherwise to
`Capturing` with `Accepted{dy, score}`. -/
theorem appendAccepted_spec (s : ScrollSession) (a : ℕ) (sc : ℚ)
    (hd : s.state ≠ .done) (he : s.state ≠ .error) :
    (s.appendAccepted a sc).1.frames = s.frames + 1
    ∧ (s.appendAccepted a sc).1.capturedHeightPx = min (s.capturedHeightPx + a) u32Max
    ∧ (s.appendAccepted a sc).1.consecutiveFailures = 0
    ∧ (s.appendAccepted a sc).1.config = s.config
    ∧ (if min (s.capturedHeightPx + a) u32Max ≥ s.config.maxHeightPx
          ∨ s.frames + 1 ≥ s.config.maxFrames
       then (s.appendAccepted a sc).1.state = .done
          ∧ (s.appendAccepted a sc).2 = .autoStopped .reachedMaxHeight
       else (s.appendAccepted a sc).1.state = .capturing
          ∧ (s.appendAccepted a sc).2 = .accepted a sc) := by
  clear hd he
  simp only [ScrollSession.appendAccepted]
  by_cases h1 : min (s.capturedHeightPx + a) u32Max ≥ s.config.maxHeightPx
  · simp [h1]
  · by_cases h2 : s.frames + 1 ≥ s.config.maxFrames
    · simp [h1, h2]
    · simp [h1, h2]

/-- Witness for C3: the spec's `max_height_px = 500` scenario, first call
`append_accepted(320, 0.93)` on a fresh session. -/
theorem appendAccepted_spec_witness :
    (smallHeightSession.appendAccepted 320 (93 / 100)).1.frames = smallHeightSession.frames + 1
    ∧ (smallHeightSession.appendAccepted 320 (93 / 100)).1.capturedHeightPx
        = min (smallHeightSession.capturedHeightPx + 320) u32Max
    ∧ (smallHeightSession.appendAccepted 320 (93 / 100)).1.consecutiveFailures = 0
    ∧ (smallHeightSession.appendAccepted 320 (93 / 100)).1.config = smallHeightSession.config
    ∧ (if min (smallHeightSession.capturedHeightPx + 320) u32Max
            ≥ smallHeightSession.config.maxHeightPx
          ∨ smallHeightSession.frames + 1 ≥ smallHeightSession.config.maxFrames
       then (smallHeightSession.appendAccepted 320 (93 / 100)).1.state = .done
          ∧ (smallHeightSession.appendAccepted 320 (93 / 100)).2
              = .autoStopped .reachedMaxHeight
       else (smallHeightSession.appendAccepted 320 (93 / 100)).1.state = .capturing
          ∧ (smallHeightSession.appendAccepted 320 (93 / 100)).2 = .accepted 320 (93 / 100)) :=
  appendAccepted_spec smallHeightSession 320 (93 / 100) (by decide) (by decide)

/-- Claim C6: `append_failed` saturating-increments `consecutive_failures`,
leaves `frames` and `captured_height_px` untouched, and transitions to
`Error`/`AutoStopped(ConsecutiveFailures)` exactly when the new counter
reaches `max_consecutive_failures`; otherwise it returns
`Skipped(MatchFailed)` with the state field unchanged. -/
theorem appendFailed_spec (s : ScrollSession) :
    (s.appendFailed).1.consecutiveFailures = min (s.consecutiveFailures + 1) u8Max
    ∧ (s.appendFailed).1.frames = s.frames
    ∧ (s.appendFailed).1.capturedHeightPx = s.capturedHeightPx
    ∧ (s.appendFailed).1.config = s.config
    ∧ (if min (s.consecutiveFailures + 1) u8Max ≥ s.config.maxConsecutiveFailures
       then (s.appendFailed).1.state = .error
          ∧ (s.appendFailed).2 = .autoStopped .consecutiveFailures
       else (s.appendFailed).1.state = s.state
          ∧ (s.appendFailed).2 = .skipped .matchFailed) := by
  simp only [ScrollSession.appendFailed]
  by_cases h : min (s.consecutiveFailures + 1) u8Max ≥ s.config.maxConsecutiveFailures
  · simp [h]
  · simp [h]

/-- Claim C1 (counterexample): a session already in the terminal `Done` state
is mutated by `append_accepted` — its frame counter changes and its state even
leaves `Done` — refuting "no field changes after entering Done or Error". -/
theorem doneSession_mutated_by_appendAccepted :
    doneSession.state = .done
    ∧ (doneSession.appendAccepted 5 0).1.frames ≠ doneSession.frames
    ∧ (doneSession.appendAccepted 5 0).1.state ≠ doneSession.state := by
  refine ⟨rfl, ?_, ?_⟩ <;> decide

/-- Claim C1 (amended): the append methods carry no terminal-state guard —
on a session in `Done` or `Error` they perform their ordinary field updates
(`frames + 1`, saturating height add, failure-counter reset or saturating
increment), so the session's fields do change. -/
theorem append_no_terminal_guard (s : ScrollSession) (a : ℕ) (sc : ℚ)
    (h : s.state = .done ∨ s.state = .error) :
    (s.appendAccepted a sc).1.frames = s.frames + 1
    ∧ (s.appendAccepted a sc).1.capturedHeightPx = min (s.capturedHeightPx + a) u32Max
    ∧ (s.appendAccepted a sc).1.consecutiveFailures = 0
    ∧ (s.appendFailed).1.consecutiveFailures = min (s.consecutiveFailures + 1) u8Max := by
  clear h
  constructor
  · simp only [ScrollSession.appendAccepted]
    split <;> simp <;> split <;> simp
  constructor
  · simp only [ScrollSession.appendAccepted]
    split <;> simp <;> split <;> simp
  constructor
  · simp only [ScrollSession.appendAccepted]
    split <;> simp <;> split <;> simp
  · simp only [ScrollSession.appendFailed]
    split <;> simp

/-- Witness for the amended C1, at the concrete terminal session. -/
theorem append_no_terminal_guard_witness :
    (doneSession.appendAccepted 5 0).1.frames = doneSession.frames + 1
    ∧ (doneSession.appendAccepted 5 0).1.capturedHeightPx
        = min (doneSession.capturedHeightPx + 5) u32Max
    ∧ (doneSession.appendAccepted 5 0).1.consecutiveFailures = 0
    ∧ (doneSession.appendFailed).1.consecutiveFailures
        = min (doneSession.consecutiveFailures + 1) u8Max :=
  append_no_terminal_guard doneSession 5 0 (Or.inl rfl)

theorem strideAux_mem {step : ℕ} (hstep : 0 < step) :
    ∀ (fuel start bound x : ℕ), bound - start ≤ fuel →
      (x ∈ strideAux fuel start step bound ↔ start ≤ x ∧ x < bound ∧ step ∣ (x - start)) := by
  intro fuel
  induction fuel with
  | zero =>
    intro start bound x hf
    simp only [strideAux, List.not_mem_nil, false_iff]
    omega
  | succ n ih =>
    intro start bound x hf
    simp only [strideAux]
    by_cases hsb : start < bound
    · simp only [if_pos hsb, List.mem_cons]
      have hf' : bound - (start + step) ≤ n := by omega
      rw [ih (start + step) bound x hf']
      constructor
      · rintro (rfl | ⟨h1, h2, k, hk⟩)
        · exact ⟨le_refl _, hsb, ⟨0, by omega⟩⟩
        · exact ⟨by omega, h2, ⟨k + 1, by rw [Nat.mul_succ]; omega⟩⟩
      · rintro ⟨h1, h2, k, hk⟩
        rcases k with _ | k
        · left; omega
        · right
          rw [Nat.mul_succ] at hk
          refine ⟨by omega, h2, ⟨k, by omega⟩⟩
    · simp only [if_neg hsb, List.not_mem_nil, false_iff]
      omega

theorem strideList_mem {step : ℕ} (hstep : 0 < step) (start bound x : ℕ) :
    x ∈ strideList start step bound ↔ start ≤ x ∧ x < bound ∧ step ∣ (x - start) :=
  strideAux_mem hstep (bound - start) start bound x (le_refl _)

theorem strideAux_cons (fuel start step bound : ℕ) (h : start < bound) :
    strideAux (fuel + 1) start step bound
      = start :: strideAux fuel (start + step) step bound := by
  simp [strideAux, h]

theorem strideList_ne_nil {start step bound : ℕ} (h : start < bound) :
    strideList start step bound ≠ [] := by
  have h1 : 1 ≤ bound - start := by omega
  unfold strideList
  rcases hn : bound - start with _ | n
  · omega
  · rw [strideAux_cons n start step bound h]
    simp

theorem strideAux_ge (step : ℕ) :
    ∀ (fuel start bound x : ℕ), x ∈ strideAux fuel start step bound → start ≤ x := by
  intro fuel
  induction fuel with
  | zero => intro start bound x hx; simp [strideAux] at hx
  | succ n ih =>
    intro start bound x hx
    simp only [strideAux] at hx
    by_cases hsb : start < bound
    · rw [if_pos hsb] at hx
      rcases List.mem_cons.mp hx with rfl | hx'
      · exact le_refl _
      · have := ih (start + step) bound x hx'
        omega
    · rw [if_neg hsb] at hx
      simp at hx

theorem strideAux_sorted {step : ℕ} (hstep : 0 < step) :
    ∀ (fuel start bound : ℕ), (strideAux fuel start step bound).Pairwise (· < ·) := by
  intro fuel
  induction fuel with
  | zero => intro start bound; simp [strideAux]
  | succ n ih =>
    intro start bound
    simp only [strideAux]
    by_cases hsb : start < bound
    · simp only [if_pos hsb]
      refine List.Pairwise.cons ?_ (ih (start + step) bound)
      intro x hx
      have hmem := strideAux_ge step n (start + step) bound x hx
      omega
    · simp [if_neg hsb]

theorem strideList_sorted {step : ℕ} (hstep : 0 < step) (start bound : ℕ) :
    (strideList start step bound).Pairwise (· < ·) :=
  strideAux_sorted hstep (bound - start) start bound

theorem gridPoints_mem (ys xs : List ℕ) (p : ℕ × ℕ) :
    p ∈ gridPoints ys xs ↔ p.2 ∈ ys ∧ p.1 ∈ xs := by
  induction ys with
  | nil => simp [gridPoints]
  | cons y ys ih =>
    rcases p with ⟨px, py⟩
    simp only [gridPoints, List.mem_append, List.mem_map, List.mem_cons, ih]
    constructor
    · rintro (⟨x, hx, he⟩ | ⟨h2, h1⟩)
      · obtain ⟨rfl, rfl⟩ : px = x ∧ py = y := by
          constructor <;> [exact (Prod.mk.injEq ..).mp he.symm |>.1;
            exact (Prod.mk.injEq ..).mp he.symm |>.2]
        exact ⟨Or.inl rfl, hx⟩
      · exact ⟨Or.inr h2, h1⟩
    · rintro ⟨rfl | h2, h1⟩
      · exact Or.inl ⟨px, h1, rfl⟩
      · exact Or.inr ⟨h2, h1⟩

theorem gridPoints_ne_nil {ys xs : List ℕ} (hy : ys ≠ []) (hx : xs ≠ []) :
    gridPoints ys xs ≠ [] := by
  rcases ys with _ | ⟨y, ys⟩
  · exact absurd rfl hy
  rcases xs with _ | ⟨x, xs⟩
  · exact absurd rfl hx
  · simp [gridPoints]

theorem pixDiff_self (p : Pix) : pixDiff p p = 0 := by
  simp [pixDiff, Nat.dist_self]

/-- Claim C9: the strided mean-absolute-RGB difference of a non-degenerate
bitmap against itself is zero, in particular below `0.5`. -/
theorem sampleFrameDifference_self (f : Image) (hw : 0 < f.width) (hh : 0 < f.height) :
    sampleFrameDifference f f < 1 / 2 := by
  have hsne : diffSamples f ≠ [] :=
    gridPoints_ne_nil (strideList_ne_nil hh) (strideList_ne_nil hw)
  have hlen : (diffSamples f).length ≠ 0 := by
    simpa [List.length_eq_zero] using hsne
  have hzero : ((diffSamples f).map fun xy => pixDiff (f.pix xy.1 xy.2) (f.pix xy.1 xy.2)).sum
      = 0 := by
    refine List.sum_eq_zero ?_
    intro q hq
    rcases List.mem_map.mp hq with ⟨xy, _, rfl⟩
    exact pixDiff_self _
  rw [sampleFrameDifference]
  rw [if_neg (show ¬(f.width = 0 ∨ f.height = 0) by omega)]
  simp only [hzero]
  rw [if_neg hlen]
  norm_num

/-- Witness for C9: a concrete 3×3 solid-gray bitmap. -/
def grayImage : Image := { width := 3, height := 3, pix := fun _ _ => ⟨128, 128, 128, 255⟩ }

/-- Witness for C9 at the concrete 3×3 bitmap. -/
theorem sampleFrameDifference_self_witness :
    sampleFrameDifference grayImage grayImage < 1 / 2 :=
  sampleFrameDifference_self grayImage (by decide) (by decide)

/-- Claim C5 (amended): when the first bitmap (`prev`) has zero width or
zero height, `sample_frame_difference` returns the sentinel `255.0` before
touching any pixel, so no read can go out of bounds.  The guard inspects
only `prev`: see the counterexample for a non-empty `prev` with an empty
`current`. -/
theorem sampleFrameDifference_degenerate_prev (prev curr : Image)
    (h : prev.width = 0 ∨ prev.height = 0) :
    sampleFrameDifference prev curr = 255 ∧ sampleFrameDifferenceSafe prev curr = true := by
  constructor
  · rw [sampleFrameDifference, if_pos h]
  · rw [sampleFrameDifferenceSafe, if_pos h]

/-- A concrete 1×1 bitmap. -/
def tinyPrev : Image := { width := 1, height := 1, pix := fun _ _ => ⟨0, 0, 0, 255⟩ }

/-- A concrete 0×0 bitmap. -/
def emptyImage : Image := { width := 0, height := 0, pix := fun _ _ => ⟨0, 0, 0, 0⟩ }

/-- Claim C5 (counterexample): with a non-empty `prev` (1×1) and an empty
`current` (0×0) — a pair in which "at least one of the two" is empty — the
sampling loop reads `current.get_pixel(0, 0)`, which is out of bounds, so
the Rust code panics instead of returning the sentinel. -/
theorem sampleFrameDifference_aborts_on_empty_current :
    (emptyImage.width = 0 ∨ emptyImage.height = 0)
    ∧ sampleFrameDifferenceSafe tinyPrev emptyImage = false :=
  ⟨Or.inl rfl, by decide⟩

/-- Witness for the amended C5, at the concrete empty `prev`. -/
theorem sampleFrameDifference_degenerate_prev_witness :
    sampleFrameDifference emptyImage tinyPrev = 255
    ∧ sampleFrameDifferenceSafe emptyImage tinyPrev = true :=
  sampleFrameDifference_degenerate_prev emptyImage tinyPrev (Or.inl rfl)

theorem bestStep_of_none {oe : ℕ → Option ℚ} {b : Option (ℕ × ℚ)} {o : ℕ}
    (h : oe o = none) : bestStep oe b o = b := by
  simp [bestStep, h]

theorem bestLoop_from_some (oe : ℕ → Option ℚ) :
    ∀ (l : List ℕ) (bo : ℕ) (be : ℚ) (o : ℕ) (e : ℚ),
      bestLoop oe l (some (bo, be)) = some (o, e) →
      (o = bo ∧ e = be) ∨ (o ∈ l ∧ oe o = some e ∧ e < be) := by
  intro l
  induction l with
  | nil =>
    intro bo be o e h
    simp only [bestLoop, Option.some.injEq, Prod.mk.injEq] at h
    exact Or.inl ⟨h.1.symm, h.2.symm⟩
  | cons x t ih =>
    intro bo be o e h
    simp only [bestLoop] at h
    cases hx : oe x with
    | none =>
      rw [bestStep_of_none hx] at h
      rcases ih bo be o e h with h1 | ⟨hm, ho, he⟩
      · exact Or.inl h1
      · exact Or.inr ⟨List.mem_cons_of_mem x hm, ho, he⟩
    | some ex =>
      rw [show bestStep oe (some (bo, be)) x = if ex < be then some (x, ex) else some (bo, be)
        by simp [bestStep, hx]] at h
      by_cases hlt : ex < be
      · rw [if_pos hlt] at h
        rcases ih x ex o e h with ⟨rfl, rfl⟩ | ⟨hm, ho, he⟩
        · exact Or.inr ⟨List.mem_cons_self _ _, hx, hlt⟩
        · exact Or.inr ⟨List.mem_cons_of_mem _ hm, ho, lt_trans he hlt⟩
      · rw [if_neg hlt] at h
        rcases ih bo be o e h with h1 | ⟨hm, ho, he⟩
        · exact Or.inl h1
        · exact Or.inr ⟨List.mem_cons_of_mem x hm, ho, he⟩

theorem bestLoop_none_iff (oe : ℕ → Option ℚ) :
    ∀ (l : List ℕ) (acc : Option (ℕ × ℚ)),
      bestLoop oe l acc = none ↔ acc = none ∧ ∀ o ∈ l, oe o = none := by
  intro l
  induction l with
  | nil => intro acc; simp [bestLoop]
  | cons x t ih =>
    intro acc
    simp only [bestLoop]
    cases hx : oe x with
    | none =>
      rw [bestStep_of_none hx, ih acc]
      constructor
      · rintro ⟨h1, h2⟩
        refine ⟨h1, ?_⟩
        intro o ho
        rcases List.mem_cons.mp ho with rfl | ho'
        · exact hx
        · exact h2 o ho'
      · rintro ⟨h1, h2⟩
        exact ⟨h1, fun o ho => h2 o (List.mem_cons_of_mem x ho)⟩
    | some ex =>
      have hstep : ∃ p, bestStep oe acc x = some p := by
        cases acc with
        | none => exact ⟨(x, ex), by simp [bestStep, hx]⟩
        | some q =>
          rcases q with ⟨bo, be⟩
          by_cases hlt : ex < be
          · exact ⟨(x, ex), by simp [bestStep, hx, hlt]⟩
          · exact ⟨(bo, be), by simp [bestStep, hx, hlt]⟩
      rcases hstep with ⟨p, hp⟩
      rw [hp]
      constructor
      · intro h
        rcases p with ⟨po, pe⟩
        rcases (ih (some (po, pe))).mp h with ⟨h1, _⟩
        exact absurd h1 (by simp)
      · rintro ⟨h1, h2⟩
        exact absurd (h2 x (List.mem_cons_self x t)) (by simp [hx])

theorem bestLoop_min (oe : ℕ → Option ℚ) :
    ∀ (l : List ℕ) (acc : Option (ℕ × ℚ)) (o : ℕ) (e : ℚ),
      bestLoop oe l acc = some (o, e) →
      ∀ o' ∈ l, ∀ e', oe o' = some e' → e ≤ e' := by
  intro l
  induction l with
  | nil =>
    intro acc o e _ o' ho'
    simp at ho'
  | cons x t ih =>
    intro acc o e h o' ho' e' he'
    simp only [bestLoop] at h
    rcases List.mem_cons.mp ho' with rfl | hmem
    · have hkey : ∃ b1 be1, bestStep oe acc o' = some (b1, be1) ∧ be1 ≤ e' := by
        cases acc with
        | none => exact ⟨o', e', by simp [bestStep, he'], le_refl _⟩
        | some q =>
          rcases q with ⟨bo, be⟩
          by_cases hlt : e' < be
          · exact ⟨o', e', by simp [bestStep, he', hlt], le_refl _⟩
          · exact ⟨bo, be, by simp [bestStep, he', hlt], not_lt.mp hlt⟩
      rcases hkey with ⟨b1, be1, hb, hle⟩
      rw [hb] at h
      rcases bestLoop_from_some oe t b1 be1 o e h with ⟨_, rfl⟩ | ⟨_, _, hlt2⟩
      · exact hle
      · exact le_trans (le_of_lt hlt2) hle
    · exact ih (bestStep oe acc x) o e h o' hmem e' he'

theorem bestLoop_provenance (oe : ℕ → Option ℚ) :
    ∀ (l : List ℕ) (o : ℕ) (e : ℚ),
      bestLoop oe l none = some (o, e) → o ∈ l ∧ oe o = some e := by
  intro l
  induction l with
  | nil =>
    intro o e h
    simp [bestLoop] at h
  | cons x t ih =>
    intro o e h
    simp only [bestLoop] at h
    cases hx : oe x with
    | none =>
      rw [bestStep_of_none hx] at h
      rcases ih o e h with ⟨hm, ho⟩
      exact ⟨List.mem_cons_of_mem x hm, ho⟩
    | some ex =>
      rw [show bestStep oe none x = some (x, ex) by simp [bestStep, hx]] at h
      rcases bestLoop_from_some oe t x ex o e h with ⟨rfl, rfl⟩ | ⟨hm, ho, _⟩
      · exact ⟨List.mem_cons_self _ _, hx⟩
      · exact ⟨List.mem_cons_of_mem _ hm, ho⟩

theorem bestLoop_first_win (oe : ℕ → Option ℚ) :
    ∀ (l : List ℕ) (acc : Option (ℕ × ℚ)) (o : ℕ) (e : ℚ),
      l.Pairwise (· < ·) →
      (∀ bo be, acc = some (bo, be) → ∀ o'' ∈ l, bo < o'') →
      bestLoop oe l acc = some (o, e) →
      ∀ o' ∈ l, o' < o → ∀ e', oe o' = some e' → e < e' := by
  intro l
  induction l with
  | nil =>
    intro acc o e _ _ _ o' ho'
    simp at ho'
  | cons x t ih =>
    intro acc o e hsort hacc h o' ho' hlt e' he'
    simp only [bestLoop] at h
    have hsort' : t.Pairwise (· < ·) := (List.pairwise_cons.mp hsort).2
    have hxlt : ∀ y ∈ t, x < y := (List.pairwise_cons.mp hsort).1
    rcases List.mem_cons.mp ho' with rfl | hmem
    · cases acc with
      | none =>
        rw [show bestStep oe none o' = some (o', e') by simp [bestStep, he']] at h
        rcases bestLoop_from_some oe t o' e' o e h with ⟨rfl, _⟩ | ⟨_, _, hlt2⟩
        · omega
        · exact hlt2
      | some q =>
        rcases q with ⟨bo, be⟩
        have hbo : bo < o' := hacc bo be rfl o' (List.mem_cons_self o' t)
        by_cases hl : e' < be
        · rw [show bestStep oe (some (bo, be)) o' = some (o', e')
            by simp [bestStep, he', hl]] at h
          rcases bestLoop_from_some oe t o' e' o e h with ⟨rfl, _⟩ | ⟨_, _, hlt2⟩
          · omega
          · exact hlt2
        · rw [show bestStep oe (some (bo, be)) o' = some (bo, be)
            by simp [bestStep, he', hl]] at h
          rcases bestLoop_from_some oe t bo be o e h with ⟨rfl, rfl⟩ | ⟨_, _, hlt2⟩
          · omega
          · exact lt_of_lt_of_le hlt2 (not_lt.mp hl)
    · have hacc' : ∀ bo be, bestStep oe acc x = some (bo, be) → ∀ o'' ∈ t, bo < o'' := by
        intro bo be hb o'' ho''
        cases hx : oe x with
        | none =>
          rw [bestStep_of_none hx] at hb
          exact hacc bo be hb o'' (List.mem_cons_of_mem x ho'')
        | some ex =>
          cases acc with
          | none =>
            rw [show bestStep oe none x = some (x, ex) by simp [bestStep, hx]] at hb
            simp only [Option.some.injEq, Prod.mk.injEq] at hb
            rw [← hb.1]
            exact hxlt o'' ho''
          | some q' =>
            rcases q' with ⟨b0, be0⟩
            by_cases hl2 : ex < be0
            · rw [show bestStep oe (some (b0, be0)) x = some (x, ex)
                by simp [bestStep, hx, hl2]] at hb
              simp only [Option.some.injEq, Prod.mk.injEq] at hb
              rw [← hb.1]
              exact hxlt o'' ho''
            · rw [show bestStep oe (some (b0, be0)) x = some (b0, be0)
                by simp [bestStep, hx, hl2]] at hb
              simp only [Option.some.injEq, Prod.mk.injEq] at hb
              rw [← hb.1]
              exact hacc b0 be0 rfl o'' (List.mem_cons_of_mem x ho'')
      exact ih (bestStep oe acc x) o e hsort' hacc' h o' hmem hlt e' he'

theorem overlapCandidates_mem (h x : ℕ) :
    x ∈ overlapCandidates h
      ↔ minOverlapFor h ≤ x ∧ x ≤ maxOverlapFor h ∧ 2 ∣ (x - minOverlapFor h) := by
  unfold overlapCandidates
  rw [strideList_mem (by norm_num)]
  omega

theorem overlapCandidates_sorted (h : ℕ) : (overlapCandidates h).Pairwise (· < ·) :=
  strideList_sorted (by norm_num) _ _

theorem findBestOverlap_ok_elim {prev curr : Image} {o : ℕ} {e : ℚ}
    (hok : findBestOverlap prev curr = .ok (o, e)) :
    bestCandidate prev curr = some (o, e) ∧ ¬ maxScrollMatchError < e := by
  unfold findBestOverlap at hok
  cases hb : bestCandidate prev curr with
  | none => rw [hb] at hok; exact absurd hok (by simp)
  | some p =>
    rcases p with ⟨po, pe⟩
    rw [hb] at hok
    by_cases hq : maxScrollMatchError < pe
    · simp only [hq, if_true] at hok
      exact absurd hok (by simp)
    · simp only [hq, if_false, Except.ok.injEq, Prod.mk.injEq] at hok
      rw [← hok.1, ← hok.2]
      exact ⟨rfl, hq⟩

/-- Claim C2: when `find_best_overlap` succeeds on equal-dimension frames of
height `h`, the returned overlap lies in the candidate set
`{min_overlap, min_overlap + 2, …} ∩ [0, max_overlap]` with
`min_overlap = min(24, h - 1)` and `max_overlap = max(min_overlap, h - 40)`,
the returned score is that overlap's banded sampling score and the minimum
over every candidate's score, and any smaller candidate scores strictly
worse — the first minimum in ascending step order wins. -/
theorem findBestOverlap_selection (prev curr : Image) (o : ℕ) (e : ℚ)
    (hw : curr.width = prev.width) (hh : curr.height = prev.height)
    (hok : findBestOverlap prev curr = .ok (o, e)) :
    minOverlapFor prev.height = min 24 (prev.height - 1)
    ∧ maxOverlapFor prev.height = max (minOverlapFor prev.height) (prev.height - 40)
    ∧ minOverlapFor prev.height ≤ o ∧ o ≤ maxOverlapFor prev.height
    ∧ 2 ∣ (o - minOverlapFor prev.height)
    ∧ overlapError prev curr o = some e
    ∧ (∀ o', minOverlapFor prev.height ≤ o' → o' ≤ maxOverlapFor prev.height →
        2 ∣ (o' - minOverlapFor prev.height) →
        ∀ e', overlapError prev curr o' = some e' → e ≤ e' ∧ (o' < o → e < e')) := by
  clear hw hh
  rcases findBestOverlap_ok_elim hok with ⟨hbc, -⟩
  unfold bestCandidate at hbc
  have hprov := bestLoop_provenance (overlapError prev curr) (overlapCandidates prev.height)
    o e hbc
  rcases hprov with ⟨hmem, hscore⟩
  have hchar := (overlapCandidates_mem prev.height o).mp hmem
  refine ⟨rfl, Nat.max_comm _ _, hchar.1, hchar.2.1, hchar.2.2, hscore, ?_⟩
  intro o' h1 h2 h3 e' he'
  have hmem' : o' ∈ overlapCandidates prev.height :=
    (overlapCandidates_mem prev.height o').mpr ⟨h1, h2, h3⟩
  constructor
  · exact bestLoop_min (overlapError prev curr) (overlapCandidates prev.height) none o e hbc
      o' hmem' e' he'
  · intro hlt
    exact bestLoop_first_win (overlapError prev curr) (overlapCandidates prev.height) none o e
      (overlapCandidates_sorted prev.height) (by intro bo be hb; exact absurd hb (by simp))
      hbc o' hmem' hlt e' he'

/-- A concrete 2×2 solid-color frame on which `find_best_overlap` succeeds
(single candidate overlap 1, score 0). -/
def flatFrame : Image := { width := 2, height := 2, pix := fun _ _ => ⟨10, 20, 30, 255⟩ }

/-- Witness for C2: on the concrete 2×2 frame against itself the search
succeeds with overlap 1 and score 0, and that score is the candidate
minimum. -/
theorem findBestOverlap_selection_witness :
    minOverlapFor flatFrame.height = min 24 (flatFrame.height - 1)
    ∧ maxOverlapFor flatFrame.height = max (minOverlapFor flatFrame.height) (flatFrame.height - 40)
    ∧ minOverlapFor flatFrame.height ≤ 1 ∧ 1 ≤ maxOverlapFor flatFrame.height
    ∧ 2 ∣ (1 - minOverlapFor flatFrame.height)
    ∧ overlapError flatFrame flatFrame 1 = some 0
    ∧ (∀ o', minOverlapFor flatFrame.height ≤ o' → o' ≤ maxOverlapFor flatFrame.height →
        2 ∣ (o' - minOverlapFor flatFrame.height) →
        ∀ e', overlapError flatFrame flatFrame o' = some e' → 0 ≤ e' ∧ (o' < 1 → 0 < e')) :=
  findBestOverlap_selection flatFrame flatFrame 1 0 rfl rfl (by with_unfolding_all decide)

/-- Claim C4: on equal-dimension frames, `find_best_overlap` returns an
error exactly when no candidate overlap was usably evaluated (every
candidate's banded score is the `f64::MAX` sentinel, so no best candidate
exists) or when the best candidate's score exceeds the quality ceiling
`42.0`; in every other case it returns the best overlap and its score. -/
theorem findBestOverlap_error_iff (prev curr : Image)
    (hw : curr.width = prev.width) (hh : curr.height = prev.height) :
    ((∃ err, findBestOverlap prev curr = .error err) ↔
      (∀ o ∈ overlapCandidates prev.height, overlapError prev curr o = none)
      ∨ (∃ o e, bestCandidate prev curr = some (o, e) ∧ maxScrollMatchError < e))
    ∧ (∀ o e, bestCandidate prev curr = some (o, e) → e ≤ maxScrollMatchError →
        findBestOverlap prev curr = .ok (o, e)) := by
  clear hw hh
  have hnone : bestCandidate prev curr = none ↔
      ∀ o ∈ overlapCandidates prev.height, overlapError prev curr o = none := by
    unfold bestCandidate
    rw [bestLoop_none_iff]
    simp
  constructor
  · cases hb : bestCandidate prev curr with
    | none =>
      constructor
      · intro _
        exact Or.inl (hnone.mp hb)
      · intro _
        exact ⟨.noOverlap, by unfold findBestOverlap; rw [hb]⟩
    | some p =>
      rcases p with ⟨po, pe⟩
      have hfb : findBestOverlap prev curr
          = if maxScrollMatchError < pe then .error .matchTooWeak else .ok (po, pe) := by
        unfold findBestOverlap
        rw [hb]
      by_cases hq : maxScrollMatchError < pe
      · rw [if_pos hq] at hfb
        constructor
        · intro _
          exact Or.inr ⟨po, pe, rfl, hq⟩
        · intro _
          exact ⟨.matchTooWeak, hfb⟩
      · rw [if_neg hq] at hfb
        constructor
        · rintro ⟨err, herr⟩
          rw [hfb] at herr
          exact absurd herr (by simp)
        · rintro (hall | ⟨o, e, hoe, hq2⟩)
          · exact absurd (hnone.mpr hall) (by simp [hb])
          · simp only [Option.some.injEq, Prod.mk.injEq] at hoe
            exact absurd hq2 (by rw [← hoe.2]; exact hq)
  · intro o e hoe hq
    have hfb : findBestOverlap prev curr
        = if maxScrollMatchError < e then .error .matchTooWeak else .ok (o, e) := by
      unfold findBestOverlap
      rw [hoe]
    rw [hfb, if_neg (not_lt.mpr hq)]

/-- Witness for C4: on the concrete 2×2 frame against itself the error
characterization holds; in particular the best candidate `(1, 0)` is within
the ceiling, so the call returns `Ok((1, 0.0))`. -/
theorem findBestOverlap_error_iff_witness :
    ((∃ err, findBestOverlap flatFrame flatFrame = .error err) ↔
      (∀ o ∈ overlapCandidates flatFrame.height, overlapError flatFrame flatFrame o = none)
      ∨ (∃ o e, bestCandidate flatFrame flatFrame = some (o, e) ∧ maxScrollMatchError < e))
    ∧ (∀ o e, bestCandidate flatFrame flatFrame = some (o, e) → e ≤ maxScrollMatchError →
        findBestOverlap flatFrame flatFrame = .ok (o, e)) :=
  findBestOverlap_error_iff flatFrame flatFrame rfl rfl

theorem find_eq_some_first {α : Type} (p : α → Bool) :
    ∀ (l : List α) (m : α),
      l.find? p = some m
        ↔ p m = true ∧ ∃ l₁ l₂, l = l₁ ++ m :: l₂ ∧ ∀ x ∈ l₁, ¬ p x = true := by
  intro l
  induction l with
  | nil =>
    intro m
    simp
  | cons a t ih =>
    intro m
    by_cases ha : p a = true
    · rw [List.find?_cons_of_pos _ ha]
      constructor
      · intro h
        have ham : a = m := by simpa using h
        subst ham
        exact ⟨ha, [], t, rfl, by simp⟩
      · rintro ⟨hm, l₁, l₂, heq, hl₁⟩
        cases l₁ with
        | nil =>
          simp only [List.nil_append, List.cons.injEq] at heq
          rw [heq.1]
        | cons b l₁' =>
          simp only [List.cons_append, List.cons.injEq] at heq
          have hb := hl₁ b (List.mem_cons_self _ _)
          rw [← heq.1] at hb
          exact absurd ha hb
    · rw [List.find?_cons_of_neg _ (by simpa using ha)]
      rw [ih m]
      constructor
      · rintro ⟨hm, l₁, l₂, heq, hl₁⟩
        refine ⟨hm, a :: l₁, l₂, by rw [heq, List.cons_append], ?_⟩
        intro x hx
        rcases List.mem_cons.mp hx with rfl | hx'
        · exact ha
        · exact hl₁ x hx'
      · rintro ⟨hm, l₁, l₂, heq, hl₁⟩
        cases l₁ with
        | nil =>
          simp only [List.nil_append, List.cons.injEq] at heq
          rw [heq.1] at ha
          exact absurd hm ha
        | cons b l₁' =>
          simp only [List.cons_append, List.cons.injEq] at heq
          exact ⟨hm, l₁', l₂, heq.2, fun x hx => hl₁ x (List.mem_cons_of_mem b hx)⟩

theorem monitorContainsCenter_iff (rect : CaptureRectInput) (m : MonitorGeometry) :
    monitorContainsCenter rect m = true
      ↔ m.logicalX ≤ rectCenterX rect ∧ rectCenterX rect < m.logicalX + m.logicalWidth
        ∧ m.logicalY ≤ rectCenterY rect ∧ rectCenterY rect < m.logicalY + m.logicalHeight := by
  simp [monitorContainsCenter, and_assoc]

/-- Claim C8: monitor resolution computes the rectangle's logical center
`(x + width / 2, y + height / 2)` and returns the first monitor in input
order whose half-open logical bounds `[x, x + w) × [y, y + h)` contain it;
when no monitor's bounds contain the center, resolution fails with a
`CaptureFailed` error. -/
theorem resolveTargetMonitor_spec (rect : CaptureRectInput) (ms : List MonitorGeometry) :
    rectCenterX rect = (rect.x : ℚ) + (rect.width : ℚ) / 2
    ∧ rectCenterY rect = (rect.y : ℚ) + (rect.height : ℚ) / 2
    ∧ (∀ m, resolveTargetMonitor rect ms = some m ↔
        (m.logicalX ≤ rectCenterX rect ∧ rectCenterX rect < m.logicalX + m.logicalWidth
          ∧ m.logicalY ≤ rectCenterY rect ∧ rectCenterY rect < m.logicalY + m.logicalHeight)
        ∧ ∃ l₁ l₂, ms = l₁ ++ m :: l₂
            ∧ ∀ m' ∈ l₁, ¬(m'.logicalX ≤ rectCenterX rect
                ∧ rectCenterX rect < m'.logicalX + m'.logicalWidth
                ∧ m'.logicalY ≤ rectCenterY rect
                ∧ rectCenterY rect < m'.logicalY + m'.logicalHeight))
    ∧ (resolveMonitorOrFail rect ms = .error .captureFailed ↔
        ∀ m ∈ ms, ¬(m.logicalX ≤ rectCenterX rect
          ∧ rectCenterX rect < m.logicalX + m.logicalWidth
          ∧ m.logicalY ≤ rectCenterY rect
          ∧ rectCenterY rect < m.logicalY + m.logicalHeight)) := by
  refine ⟨rfl, rfl, ?_, ?_⟩
  · intro m
    unfold resolveTargetMonitor
    rw [find_eq_some_first (monitorContainsCenter rect) ms m]
    constructor
    · rintro ⟨hm, l₁, l₂, heq, hl₁⟩
      exact ⟨(monitorContainsCenter_iff rect m).mp hm, l₁, l₂, heq,
        fun m' hm' hc => hl₁ m' hm' ((monitorContainsCenter_iff rect m').mpr hc)⟩
    · rintro ⟨hm, l₁, l₂, heq, hl₁⟩
      exact ⟨(monitorContainsCenter_iff rect m).mpr hm, l₁, l₂, heq,
        fun m' hm' hc => hl₁ m' hm' ((monitorContainsCenter_iff rect m').mp hc)⟩
  · unfold resolveMonitorOrFail
    cases hf : resolveTargetMonitor rect ms with
    | none =>
      have hall := List.find?_eq_none.mp hf
      constructor
      · intro _ m hm hc
        exact hall m hm ((monitorContainsCenter_iff rect m).mpr hc)
      · intro _
        rfl
    | some m =>
      have hmem := List.find?_some hf
      constructor
      · intro h
        exact absurd h (by simp)
      · intro hnone
        have hmm := List.mem_of_find?_eq_some hf
        exact absurd ((monitorContainsCenter_iff rect m).mp hmem) (hnone m hmm)

theorem stitchLoop_count :
    ∀ (rest : List Image) (prev : Image) (pieces : List Image) (skipped : ℕ),
      (stitchLoop prev pieces skipped rest).1.length + (stitchLoop prev pieces skipped rest).2
        = pieces.length + skipped + rest.length := by
  intro rest
  induction rest with
  | nil =>
    intro prev pieces skipped
    simp [stitchLoop]
  | cons f t ih =>
    intro prev pieces skipped
    simp only [stitchLoop]
    by_cases hdiff : sampleFrameDifference prev f < 18 / 10
    · rw [if_pos hdiff]
      rw [ih prev pieces (skipped + 1)]
      simp only [List.length_cons]
      omega
    · rw [if_neg hdiff]
      cases hfb : findBestOverlap prev f with
      | ok p =>
        rcases p with ⟨overlap, score⟩
        dsimp only
        by_cases hsl : f.height - overlap < 10
        · rw [if_pos hsl]
          rw [ih prev pieces (skipped + 1)]
          simp only [List.length_cons]
          omega
        · rw [if_neg hsl]
          rw [ih f (pieces ++ [cropBelow f overlap (f.height - overlap)]) skipped]
          simp only [List.length_append, List.length_cons, List.length_nil]
          omega
      | error err =>
        dsimp only
        rw [ih prev pieces (skipped + 1)]
        simp only [List.length_cons]
        omega

theorem stitchLoop_extends :
    ∀ (rest : List Image) (prev : Image) (pieces : List Image) (skipped : ℕ),
      ∃ suffix, (stitchLoop prev pieces skipped rest).1 = pieces ++ suffix := by
  intro rest
  induction rest with
  | nil =>
    intro prev pieces skipped
    exact ⟨[], by simp [stitchLoop]⟩
  | cons f t ih =>
    intro prev pieces skipped
    simp only [stitchLoop]
    by_cases hdiff : sampleFrameDifference prev f < 18 / 10
    · rw [if_pos hdiff]
      exact ih prev pieces (skipped + 1)
    · rw [if_neg hdiff]
      cases hfb : findBestOverlap prev f with
      | ok p =>
        rcases p with ⟨overlap, score⟩
        dsimp only
        by_cases hsl : f.height - overlap < 10
        · rw [if_pos hsl]
          exact ih prev pieces (skipped + 1)
        · rw [if_neg hsl]
          rcases ih f (pieces ++ [cropBelow f overlap (f.height - overlap)]) skipped with
            ⟨s, hs⟩
          exact ⟨cropBelow f overlap (f.height - overlap) :: s,
            by rw [hs, List.append_assoc, List.singleton_append]⟩
      | error err =>
        dsimp only
        exact ih prev pieces (skipped + 1)

/-- Claim C10: a successful strict stitch keeps its counters consistent —
`used_frames + skipped_frames = total_frames` with `total_frames` the input
count, at least two slices are used, and `final_height` is the sum of the
heights of the composited slices, whose list starts with the full first
frame; the composite bitmap has exactly that height. -/
theorem stitchScrollFrames_invariants (frames : List Image) (out : StitchOut)
    (hok : stitchScrollFrames frames = .ok out) :
    out.usedFrames + out.skippedFrames = out.totalFrames
    ∧ 2 ≤ out.usedFrames
    ∧ out.totalFrames = frames.length
    ∧ ∃ f0 rest, frames = f0 :: rest
        ∧ out.usedFrames = (stitchLoop f0 [f0] 0 rest).1.length
        ∧ out.finalHeight = ((stitchLoop f0 [f0] 0 rest).1.map Image.height).sum
        ∧ out.composite.height = out.finalHeight
        ∧ (stitchLoop f0 [f0] 0 rest).1.head? = some f0 := by
  cases frames with
  | nil => exact absurd hok (by simp [stitchScrollFrames])
  | cons f0 rest =>
    rw [show stitchScrollFrames (f0 :: rest)
        = (if (f0 :: rest).length < 2 then
            .error "At least two frames are required to stitch scroll capture"
          else if (f0 :: rest).length > maxScrollFrames then
            .error "Too many frames"
          else if f0.width < 20 ∨ f0.height < 20 then
            .error "Captured frame is too small"
          else if rest.any fun f => f.width ≠ f0.width || f.height ≠ f0.height then
            .error "Scroll frames have different dimensions"
          else if (stitchLoop f0 [f0] 0 rest).1.length < 2 then
            .error "Not enough unique frames after filtering similar ones"
          else
            .ok { totalFrames := (f0 :: rest).length,
                  usedFrames := (stitchLoop f0 [f0] 0 rest).1.length,
                  skippedFrames := (stitchLoop f0 [f0] 0 rest).2,
                  finalHeight := ((stitchLoop f0 [f0] 0 rest).1.map Image.height).sum,
                  composite := composeVert f0.width (stitchLoop f0 [f0] 0 rest).1 })
      from rfl] at hok
    by_cases hlen2 : (f0 :: rest).length < 2
    · rw [if_pos hlen2] at hok
      exact absurd hok (by simp)
    · rw [if_neg hlen2] at hok
      by_cases hcap : (f0 :: rest).length > maxScrollFrames
      · rw [if_pos hcap] at hok
        exact absurd hok (by simp)
      · rw [if_neg hcap] at hok
        by_cases hsm : f0.width < 20 ∨ f0.height < 20
        · rw [if_pos hsm] at hok
          exact absurd hok (by simp)
        · rw [if_neg hsm] at hok
          by_cases hdim : rest.any fun f => f.width ≠ f0.width || f.height ≠ f0.height
          · rw [if_pos hdim] at hok
            exact absurd hok (by simp)
          · rw [if_neg hdim] at hok
            by_cases hused : (stitchLoop f0 [f0] 0 rest).1.length < 2
            · rw [if_pos hused] at hok
              exact absurd hok (by simp)
            · rw [if_neg hused] at hok
              have hout : out
                  = { totalFrames := (f0 :: rest).length,
                      usedFrames := (stitchLoop f0 [f0] 0 rest).1.length,
                      skippedFrames := (stitchLoop f0 [f0] 0 rest).2,
                      finalHeight := ((stitchLoop f0 [f0] 0 rest).1.map Image.height).sum,
                      composite := composeVert f0.width (stitchLoop f0 [f0] 0 rest).1 } := by
                cases hok
                rfl
              subst hout
              have hcount := stitchLoop_count rest f0 [f0] 0
              rcases stitchLoop_extends rest f0 [f0] 0 with ⟨suffix, hsuf⟩
              refine ⟨?_, ?_, rfl, f0, rest, rfl, rfl, rfl, rfl, ?_⟩
              · dsimp only
                simp only [List.length_cons, List.length_nil, List.length_singleton]
                  at hcount ⊢
                omega
              · dsimp only
                exact Nat.le_of_not_lt hused
              · rw [hsuf]
                rfl

/-- A 20×34 vertical-gradient frame: the first frame of the concrete
stitch scenario. -/
def scrollA : Image :=
  { width := 20, height := 34, pix := fun _ y => ⟨5 * y, 5 * y, 5 * y, 255⟩ }

/-- The same gradient scrolled down by 10 rows: its top 24 rows equal
`scrollA`'s bottom 24 rows, so the overlap search matches at 24. -/
def scrollB : Image :=
  { width := 20, height := 34, pix := fun _ y => ⟨5 * (y + 10), 5 * (y + 10), 5 * (y + 10), 255⟩ }

/-- The stitch output on `[scrollA, scrollB]`: both frames used, no skips,
final height `34 + 10`. -/
def stitchOutAB : StitchOut :=
  { totalFrames := 2, usedFrames := 2, skippedFrames := 0, finalHeight := 44,
    composite := composeVert 20 [scrollA, cropBelow scrollB 24 10] }

theorem sampleFrameDifference_const {prev curr : Image} {c : ℚ}
    (hW : 0 < prev.width) (hH : 0 < prev.height)
    (hall : ∀ x y : ℕ, pixDiff (prev.pix x y) (curr.pix x y) = c) :
    sampleFrameDifference prev curr = c := by
  have hsne : diffSamples prev ≠ [] :=
    gridPoints_ne_nil (strideList_ne_nil hH) (strideList_ne_nil hW)
  have hlen : (diffSamples prev).length ≠ 0 := by
    simpa [List.length_eq_zero] using hsne
  rw [sampleFrameDifference, if_neg (by omega), if_neg hlen]
  rw [List.map_congr_left (fun xy _ => hall xy.1 xy.2), List.map_const', List.sum_replicate,
    nsmul_eq_mul]
  rw [mul_comm, mul_div_assoc, div_self (by exact_mod_cast hlen), mul_one]

theorem overlapError_const {prev curr : Image} {overlap : ℕ} {c : ℚ}
    (h0 : overlap ≠ 0) (hle : overlap ≤ prev.height)
    (hcols : prev.width * 15 / 100 < prev.width * 85 / 100)
    (hall : ∀ x r : ℕ, pixDiff (prev.pix x (prev.height - overlap + r)) (curr.pix x r) = c) :
    overlapError prev curr overlap = some c := by
  rw [overlapError, if_neg (by omega)]
  have hsne : gridPoints
      (strideList 0 (max (overlap / 80) 1) overlap)
      (strideList (prev.width * 15 / 100)
        (max ((prev.width * 85 / 100 - prev.width * 15 / 100) / 70) 1)
        (prev.width * 85 / 100)) ≠ [] :=
    gridPoints_ne_nil (strideList_ne_nil (by omega)) (strideList_ne_nil hcols)
  have hlen : (gridPoints
      (strideList 0 (max (overlap / 80) 1) overlap)
      (strideList (prev.width * 15 / 100)
        (max ((prev.width * 85 / 100 - prev.width * 15 / 100) / 70) 1)
        (prev.width * 85 / 100))).length ≠ 0 := by
    simpa [List.length_eq_zero] using hsne
  rw [if_neg hlen]
  rw [List.map_congr_left (fun xr _ => hall xr.1 xr.2), List.map_const', List.sum_replicate,
    nsmul_eq_mul]
  rw [mul_comm, mul_div_assoc, div_self (by exact_mod_cast hlen), mul_one]

theorem scrollAB_diff : sampleFrameDifference scrollA scrollB = 50 := by
  refine sampleFrameDifference_const (by decide) (by decide) ?_
  intro x y
  show pixDiff ⟨5 * y, 5 * y, 5 * y, 255⟩ ⟨5 * (y + 10), 5 * (y + 10), 5 * (y + 10), 255⟩ = 50
  unfold pixDiff
  have hd : Nat.dist (5 * y) (5 * (y + 10)) = 50 := by
    simp [Nat.dist]
    omega
  rw [hd]
  norm_num

theorem scrollAB_overlap_score : overlapError scrollA scrollB 24 = some 0 := by
  refine overlapError_const (by decide) (by decide) (by decide) ?_
  intro x r
  show pixDiff (scrollA.pix x (scrollA.height - 24 + r)) (scrollB.pix x r) = 0
  show pixDiff ⟨5 * (scrollA.height - 24 + r), 5 * (scrollA.height - 24 + r),
      5 * (scrollA.height - 24 + r), 255⟩ ⟨5 * (r + 10), 5 * (r + 10), 5 * (r + 10), 255⟩ = 0
  have hy : scrollA.height - 24 + r = r + 10 := by
    show 34 - 24 + r = r + 10
    omega
  rw [hy]
  exact pixDiff_self _

theorem scrollAB_findBestOverlap : findBestOverlap scrollA scrollB = .ok (24, 0) := by
  have hcand : overlapCandidates scrollA.height = [24] := by decide
  have hbest : bestCandidate scrollA scrollB = some (24, 0) := by
    unfold bestCandidate
    rw [hcand]
    simp [bestLoop, bestStep, scrollAB_overlap_score]
  unfold findBestOverlap
  rw [hbest]
  norm_num [maxScrollMatchError]

theorem stitchLoop_nil (prev : Image) (pieces : List Image) (skipped : ℕ) :
    stitchLoop prev pieces skipped [] = (pieces, skipped) := rfl

theorem stitchLoop_cons (prev : Image) (pieces : List Image) (skipped : ℕ) (f : Image)
    (t : List Image) :
    stitchLoop prev pieces skipped (f :: t)
      = if sampleFrameDifference prev f < 18 / 10 then
          stitchLoop prev pieces (skipped + 1) t
        else
          match findBestOverlap prev f with
          | .ok (overlap, _) =>
            if f.height - overlap < 10 then
              stitchLoop prev pieces (skipped + 1) t
            else
              stitchLoop f (pieces ++ [cropBelow f overlap (f.height - overlap)]) skipped t
          | .error _ => stitchLoop prev pieces (skipped + 1) t := rfl

theorem scrollAB_stitchLoop :
    stitchLoop scrollA [scrollA] 0 [scrollB] = ([scrollA, cropBelow scrollB 24 10], 0) := by
  rw [stitchLoop_cons]
  rw [scrollAB_diff]
  rw [if_neg (by norm_num : ¬ (50 : ℚ) < 18 / 10)]
  rw [scrollAB_findBestOverlap]
  dsimp only
  rw [if_neg (by decide : ¬ scrollB.height - 24 < 10)]
  rw [stitchLoop_nil]
  rfl

theorem scrollAB_stitch : stitchScrollFrames [scrollA, scrollB] = .ok stitchOutAB := by
  rw [show stitchScrollFrames [scrollA, scrollB]
      = (if ([scrollA, scrollB] : List Image).length < 2 then
          .error "At least two frames are required to stitch scroll capture"
        else if ([scrollA, scrollB] : List Image).length > maxScrollFrames then
          .error "Too many frames"
        else if scrollA.width < 20 ∨ scrollA.height < 20 then
          .error "Captured frame is too small"
        else if [scrollB].any fun f => f.width ≠ scrollA.width || f.height ≠ scrollA.height then
          .error "Scroll frames have different dimensions"
        else if (stitchLoop scrollA [scrollA] 0 [scrollB]).1.length < 2 then
          .error "Not enough unique frames after filtering similar ones"
        else
          .ok { totalFrames := ([scrollA, scrollB] : List Image).length,
                usedFrames := (stitchLoop scrollA [scrollA] 0 [scrollB]).1.length,
                skippedFrames := (stitchLoop scrollA [scrollA] 0 [scrollB]).2,
                finalHeight :=
                  ((stitchLoop scrollA [scrollA] 0 [scrollB]).1.map Image.height).sum,
                composite := composeVert scrollA.width
                  (stitchLoop scrollA [scrollA] 0 [scrollB]).1 })
    from rfl]
  rw [scrollAB_stitchLoop]
  rw [if_neg (by decide : ¬ ([scrollA, scrollB] : List Image).length < 2)]
  rw [if_neg (by decide : ¬ ([scrollA, scrollB] : List Image).length > maxScrollFrames)]
  rw [if_neg (by decide : ¬ (scrollA.width < 20 ∨ scrollA.height < 20))]
  rw [if_neg (by decide :
    ¬ ([scrollB].any fun f => f.width ≠ scrollA.width || f.height ≠ scrollA.height) = true)]
  rw [if_neg (by decide : ¬ ([scrollA, cropBelow scrollB 24 10] : List Image).length < 2)]
  rfl

/-- Witness for C10 at the concrete two-frame scroll scenario. -/
theorem stitchScrollFrames_invariants_witness :
    stitchOutAB.usedFrames + stitchOutAB.skippedFrames = stitchOutAB.totalFrames
    ∧ 2 ≤ stitchOutAB.usedFrames
    ∧ stitchOutAB.totalFrames = [scrollA, scrollB].length
    ∧ ∃ f0 rest, [scrollA, scrollB] = f0 :: rest
        ∧ stitchOutAB.usedFrames = (stitchLoop f0 [f0] 0 rest).1.length
        ∧ stitchOutAB.finalHeight = ((stitchLoop f0 [f0] 0 rest).1.map Image.height).sum
        ∧ stitchOutAB.composite.height = stitchOutAB.finalHeight
        ∧ (stitchLoop f0 [f0] 0 rest).1.head? = some f0 :=
  stitchScrollFrames_invariants [scrollA, scrollB] stitchOutAB scrollAB_stitch

theorem stitchLoop_all_filtered :
    ∀ (rest : List Image) (prev : Image) (pieces : List Image) (skipped : ℕ),
      (∀ f ∈ rest, frameFiltered prev f = true) →
      stitchLoop prev pieces skipped rest = (pieces, skipped + rest.length) := by
  intro rest
  induction rest with
  | nil =>
    intro prev pieces skipped _
    simp [stitchLoop]
  | cons f t ih =>
    intro prev pieces skipped hall
    have hf := hall f (List.mem_cons_self _ _)
    have ht : ∀ g ∈ t, frameFiltered prev g = true :=
      fun g hg => hall g (List.mem_cons_of_mem _ hg)
    rw [stitchLoop_cons]
    unfold frameFiltered at hf
    by_cases hdiff : sampleFrameDifference prev f < 18 / 10
    · rw [if_pos hdiff, ih prev pieces (skipped + 1) ht]
      simp only [List.length_cons, Prod.mk.injEq]
      exact ⟨trivial, by omega⟩
    · rw [if_neg hdiff]
      rw [if_neg hdiff] at hf
      cases hfb : findBestOverlap prev f with
      | ok p =>
        rcases p with ⟨overlap, score⟩
        rw [hfb] at hf
        dsimp only at hf ⊢
        have hsl : f.height - overlap < 10 := of_decide_eq_true hf
        rw [if_pos hsl, ih prev pieces (skipped + 1) ht]
        simp only [List.length_cons, Prod.mk.injEq]
        exact ⟨trivial, by omega⟩
      | error err =>
        dsimp only
        rw [ih prev pieces (skipped + 1) ht]
        simp only [List.length_cons, Prod.mk.injEq]
        exact ⟨trivial, by omega⟩

theorem getLast?_drop_eq {α : Type} :
    ∀ (n : ℕ) (l : List α), l.drop n ≠ [] → (l.drop n).getLast? = l.getLast? := by
  intro n
  induction n with
  | zero =>
    intro l _
    rfl
  | succ m ih =>
    intro l hne
    cases l with
    | nil => simp at hne
    | cons a t =>
      rw [List.drop_succ_cons] at hne ⊢
      rw [ih t hne]
      cases t with
      | nil => simp at hne
      | cons b t' => exact (List.getLast?_cons_cons).symm

/-- Claim C7: when every frame after the first is filtered out (too similar,
failed overlap match, or a sub-10px slice), the lenient preview stitcher
does not fail: it falls back to the most recent input frame as the entire
output, so the composite has the common frame dimensions and the last
frame's pixels.  The filtering hypothesis is stated over the frame-cap
truncation `capFrames` (the identity for at most 80 input frames). -/
theorem stitchScrollFramesPreview_fallback (frames : List Image) (c0 : Image)
    (crest : List Image) (hcap : capFrames frames = c0 :: crest)
    (hw : 20 ≤ c0.width) (hh : 20 ≤ c0.height)
    (hdims : ∀ f ∈ capFrames frames, f.width = c0.width ∧ f.height = c0.height)
    (hfilt : ∀ f ∈ crest, frameFiltered c0 f = true)
    (flast : Image) (hlast : frames.getLast? = some flast) :
    ∃ out, stitchScrollFramesPreview frames = .ok out
      ∧ out.width = c0.width ∧ out.height = c0.height
      ∧ ∀ x, x < c0.width → ∀ y, y < c0.height → out.pix x y = flast.pix x y := by
  have hloop := stitchLoop_all_filtered crest c0 [c0] 0 hfilt
  have hlast' : (c0 :: crest).getLast? = some flast := by
    rw [← hcap]
    unfold capFrames
    rw [getLast?_drop_eq (frames.length - maxScrollFrames) frames
      (by unfold capFrames at hcap; rw [hcap]; simp)]
    exact hlast
  have hpieces : previewPieces c0 crest = [flast] := by
    unfold previewPieces
    rw [hloop]
    rw [if_pos (by simp)]
    rw [hlast']
  have hflastmem : flast ∈ capFrames frames := by
    rw [hcap]
    exact List.mem_of_mem_getLast? hlast'
  have hfdims := hdims flast hflastmem
  refine ⟨composeVert c0.width (previewPieces c0 crest), ?_, rfl, ?_, ?_⟩
  · unfold stitchScrollFramesPreview
    rw [hcap]
    dsimp only
    rw [if_neg (by omega : ¬ (c0.width < 20 ∨ c0.height < 20))]
    have hany : (crest.any fun f => f.width ≠ c0.width || f.height ≠ c0.height) = false := by
      rw [List.any_eq_false]
      intro f hfmem
      have hd := hdims f (by rw [hcap]; exact List.mem_cons_of_mem _ hfmem)
      simp [hd.1, hd.2]
    rw [if_neg (by rw [hany]; simp)]
  · rw [hpieces]
    show ([flast].map Image.height).sum = c0.height
    simp [hfdims.2]
  · intro x hx y hy
    rw [hpieces]
    show stackPix [flast] x y = flast.pix x y
    unfold stackPix
    rw [if_pos (by rw [hfdims.2]; exact hy)]

/-- A 20×20 solid-color frame, the single input of the preview witness. -/
def flat20 : Image := { width := 20, height := 20, pix := fun _ _ => ⟨7, 8, 9, 255⟩ }

/-- Witness for C7: previewing the single 20×20 frame falls back to that
frame itself. -/
theorem stitchScrollFramesPreview_fallback_witness :
    ∃ out, stitchScrollFramesPreview [flat20] = .ok out
      ∧ out.width = flat20.width ∧ out.height = flat20.height
      ∧ ∀ x, x < flat20.width → ∀ y, y < flat20.height → out.pix x y = flat20.pix x y :=
  stitchScrollFramesPreview_fallback [flat20] flat20 [] rfl (by decide) (by decide)
    (by
      intro f hf
      rcases List.mem_singleton.mp hf with rfl
      exact ⟨rfl, rfl⟩)
    (by
      intro f hf
      exact absurd hf (List.not_mem_nil f))
    flat20 rfl

end Ashot
